import Mathlib

/-!
Verification of the mailbox-api authorization / whitelist core.

This file gives a shallow embedding, in Lean 4, of the decision logic of the
repository `submanagementgroup/mailbox-api`:

* the domain wildcard matcher `matchesDomainPattern`
  (src/utils/validation.ts),
* the sender whitelist check `isSenderWhitelisted`
  (src/services/emailService.ts),
* the hybrid authentication resolver `authenticate` and the role predicates
  `isAdmin` / `isSystemAdmin` / `requireAdmin` (src/middleware/auth.ts),
* the RBAC predicates of src/middleware/authorize.ts and the mailbox access
  guard `verifyMailboxAccess` / `requireMailboxAccess` / `getUserMailboxIds`
  (src/middleware/mailboxAccess.ts).

JavaScript strings are modelled as Lean `String`, with the JS string methods
used by the source (`toLowerCase`, `startsWith`, `endsWith`, `substring`,
`split`, `includes`) embedded as explicit functions over the character list
`String.data`.  `toLowerCase` is embedded as character-wise `Char.toLower`,
which agrees with JS on the ASCII range (domains and role names in this code
base are ASCII).  Fallible / throwing code is embedded with `Except`, and
`undefined`-able values with `Option`.
-/

/-! ## JS string primitives -/

/-- JS `s.toLowerCase()` (ASCII case folding, character-wise). -/
def jsToLower (s : String) : String :=
  ⟨s.data.map Char.toLower⟩

/-- JS `s.startsWith(p)`. -/
def jsStartsWith (s p : String) : Bool :=
  p.data.isPrefixOf s.data

/-- JS `s.endsWith(p)`. -/
def jsEndsWith (s p : String) : Bool :=
  p.data.isSuffixOf s.data

/-- JS `s.substring(n)`: the characters of `s` from index `n` on. -/
def jsSubstring (s : String) (n : Nat) : String :=
  ⟨s.data.drop n⟩

/-! ## Domain Pattern Matcher (src/utils/validation.ts, `matchesDomainPattern`) -/

/-- Embedding of `matchesDomainPattern(senderDomain, whitelistPattern)`:

```ts
const sender = senderDomain.toLowerCase();
const pattern = whitelistPattern.toLowerCase();
if (pattern.startsWith('*.')) {
  const baseDomain = pattern.substring(2);
  return sender.endsWith('.' + baseDomain) && sender !== baseDomain;
}
if (pattern.startsWith('*')) {
  const suffix = pattern.substring(1);
  return sender.endsWith(suffix);
}
return sender === pattern;
```
-/
def matchesDomainPattern (senderDomain whitelistPattern : String) : Bool :=
  let sender := jsToLower senderDomain
  let pattern := jsToLower whitelistPattern
  if jsStartsWith pattern "*." then
    let baseDomain := jsSubstring pattern 2
    jsEndsWith sender ("." ++ baseDomain) && !(sender == baseDomain)
  else if jsStartsWith pattern "*" then
    let suffix := jsSubstring pattern 1
    jsEndsWith sender suffix
  else
    sender == pattern

/-! ## Sender whitelist check (src/services/emailService.ts, `isSenderWhitelisted`) -/

/-- JS `s.split(sep)` for a single-character separator, over character lists.
`splitOnChar sep l` always returns a non-empty list of segments. -/
def splitOnChar (sep : Char) : List Char → List (List Char)
  | [] => [[]]
  | c :: rest =>
    match splitOnChar sep rest with
    | [] => []
    | h :: t => if c == sep then [] :: h :: t else (c :: h) :: t

/-- Embedding of `isSenderWhitelisted(senderEmail)`:

```ts
const domain = senderEmail.split('@')[1];
if (!domain) { return false; }
const whitelistedPatterns = await queryRows('SELECT domain FROM whitelisted_senders');
for (const pattern of whitelistedPatterns) {
  if (matchesDomainPattern(domain, pattern.domain)) { return true; }
}
return false;
```

The rows fetched from the `whitelisted_senders` table are passed in as the
list `whitelistedPatterns`; the early-returning `for` loop is `List.any`.
`split('@')[1]` is the segment between the first `'@'` and the next `'@'`
(or the end of the string), `undefined` (`none`) when there is no `'@'`.
-/
def isSenderWhitelisted (senderEmail : String) (whitelistedPatterns : List String) : Bool :=
  match (splitOnChar '@' senderEmail.data).get? 1 with
  | none => false
  | some domain =>
    if domain.isEmpty then false
    else whitelistedPatterns.any (fun pattern => matchesDomainPattern ⟨domain⟩ pattern)

/-- Spec-side definition (from the spec's words, for comparison with the code):
"given a sender email address, extract the substring after the last `@`". -/
def specAfterLastAt (email : String) : String :=
  ⟨(splitOnChar '@' email.data).getLastD []⟩

/-! ## Hybrid authentication (src/middleware/auth.ts) -/

deriving instance DecidableEq for Except

namespace Hybrid

/-- JS truthiness for an optional string: `undefined` and `""` are falsy. -/
def truthy : Option String → Bool
  | none => false
  | some s => s != ""

/-- JS `a || b` on optional strings. -/
def jsOr (a b : Option String) : Option String :=
  if truthy a then a else b

/-- Model of JS `parseInt(s, 10)`: the longest leading run of decimal digits,
`none` modelling `NaN` when there is none.  (Sign and leading whitespace are
not exercised by any caller in the source.) -/
def jsParseInt10 (s : String) : Option Nat :=
  let digits := s.data.takeWhile (fun c => c.isDigit)
  if digits.isEmpty then none
  else some (digits.foldl (fun n c => n * 10 + (c.toNat - 48)) 0)

/-- Does `needle` occur as a contiguous run inside the list? (Helper for JS
`String.includes`.) -/
def listContainsRun [BEq α] (needle : List α) : List α → Bool
  | [] => needle.isEmpty
  | a :: rest => needle.isPrefixOf (a :: rest) || listContainsRun needle rest

/-- JS `s.includes(pat)`. -/
def includesSubstr (s pat : String) : Bool :=
  listContainsRun pat.data s.data

/-- The authorizer context bag of the Lambda event
(`event.requestContext.authorizer`): all fields are strings that may be
absent. -/
structure AuthorizerContext where
  userId : Option String
  email : Option String
  name : Option String
  role : Option String
  authProvider : Option String
  entraOid : Option String
  entraId : Option String
  principalId : Option String
deriving DecidableEq

/-- The parts of the Lambda event read by `authenticate`:
`event.requestContext?.authorizer`, `event.headers?.Authorization` and
`event.headers?.authorization`. -/
structure AuthEvent where
  authorizer : Option AuthorizerContext
  headerAuthorization : Option String
  headerAuthorizationLower : Option String
deriving DecidableEq

/-- Model of `UserContext` from src/utils/types.ts (hybrid generation).  `role` holds a
`UserRole` enum string value ("SYSTEM_ADMIN" / "TEAM_MEMBER" / "CLIENT_USER");
the source's `as UserRole` cast is a no-op, so the field is a string here.
`userId = none` models `NaN` from `parseInt`. -/
structure UserContext where
  userId : Option Nat
  email : Option String
  name : Option String
  role : String
  authProvider : String
  entraOid : Option String
  entraId : Option String
deriving DecidableEq

/-- Which branch of `authenticate` produced the identity. -/
inductive AuthPath where
  | hybrid
  | legacy
  | devBypass
deriving DecidableEq

/-- The hard-coded dev-mode identity of `authenticate`. -/
def devModeUser : UserContext :=
  { userId := some 1
    email := some "matt@submanagementgroup.com"
    name := some "Matt Chadburn (Dev Mode)"
    role := "SYSTEM_ADMIN"
    authProvider := "local"
    entraOid := none
    entraId := none }

/-- Source check `(event.headers?.Authorization || event.headers?.authorization)?.includes('DEV_TOKEN_BYPASS')`. -/
def devBypassRequested (event : AuthEvent) : Bool :=
  match jsOr event.headerAuthorization event.headerAuthorizationLower with
  | some h => includesSubstr h "DEV_TOKEN_BYPASS"
  | none => false

/-- The tail of `authenticate` reached when no authorizer branch returned:
the dev-mode bypass (`process.env.ENVIRONMENT === 'local'` and the marker in
the Authorization header) or `throw new Error('Unauthorized')`.  The source's
nested `if`s are flattened into one conjunction. -/
def authFallback (event : AuthEvent) (env : String) :
    Except String (AuthPath × UserContext) :=
  if env == "local" && devBypassRequested event then
    Except.ok (AuthPath.devBypass, devModeUser)
  else
    Except.error "Unauthorized"

/-- Embedding of `authenticate(event)` (src/middleware/auth.ts), with
`process.env.ENVIRONMENT` passed as `env` and the taken branch reported
alongside the returned `UserContext`:

```ts
if (event.requestContext?.authorizer) {
  const auth = event.requestContext.authorizer;
  if (auth.userId && auth.role && auth.authProvider) {
    return { userId: parseInt(auth.userId, 10), email: auth.email, name: auth.name,
             role: auth.role as UserRole, authProvider: auth.authProvider as AuthProvider,
             entraOid: auth.entraOid, entraId: auth.entraOid || auth.entraId };
  }
  if (auth.entraId || auth.principalId) {
    return { userId: parseInt(auth.userId || '0', 10), email: auth.email, name: auth.name,
             role: UserRole.SYSTEM_ADMIN, authProvider: 'entra',
             entraId: auth.entraId || auth.principalId, entraOid: auth.entraId || auth.principalId };
  }
}
// dev bypass / throw Unauthorized
```
-/
def authenticate (event : AuthEvent) (env : String) :
    Except String (AuthPath × UserContext) :=
  match event.authorizer with
  | some auth =>
    if truthy auth.userId && truthy auth.role && truthy auth.authProvider then
      Except.ok (AuthPath.hybrid,
        { userId := jsParseInt10 (auth.userId.getD "")
          email := auth.email
          name := auth.name
          role := auth.role.getD ""
          authProvider := auth.authProvider.getD ""
          entraOid := auth.entraOid
          entraId := jsOr auth.entraOid auth.entraId })
    else if truthy auth.entraId || truthy auth.principalId then
      Except.ok (AuthPath.legacy,
        { userId := jsParseInt10 ((jsOr auth.userId (some "0")).getD "0")
          email := auth.email
          name := auth.name
          role := "SYSTEM_ADMIN"
          authProvider := "entra"
          entraOid := jsOr auth.entraId auth.principalId
          entraId := jsOr auth.entraId auth.principalId })
    else
      authFallback event env
  | none => authFallback event env

/-- Source `isAdmin(user)`: SYSTEM_ADMIN or TEAM_MEMBER. -/
def isAdmin (user : UserContext) : Bool :=
  user.role == "SYSTEM_ADMIN" || user.role == "TEAM_MEMBER"

/-- Source `isSystemAdmin(user)`. -/
def isSystemAdmin (user : UserContext) : Bool :=
  user.role == "SYSTEM_ADMIN"

/-- Source `requireAdmin(user)`: `throw new Error('Admin access required')` unless
`isAdmin`. -/
def requireAdmin (user : UserContext) : Except String Unit :=
  if !(isAdmin user) then Except.error "Admin access required"
  else Except.ok ()

/-- Source `requireSystemAdmin(user)`. -/
def requireSystemAdmin (user : UserContext) : Except String Unit :=
  if !(isSystemAdmin user) then Except.error "System admin access required"
  else Except.ok ()

end Hybrid

/-- An event carrying the dev-bypass marker and no authorizer context. -/
def devEvent : Hybrid.AuthEvent :=
  { authorizer := none
    headerAuthorization := some "Bearer DEV_TOKEN_BYPASS"
    headerAuthorizationLower := none }

/-- An event with no authorizer context and no headers. -/
def noAuthEvent : Hybrid.AuthEvent :=
  { authorizer := none
    headerAuthorization := none
    headerAuthorizationLower := none }

/-- A CLIENT_USER identity in the hybrid `UserContext` shape. -/
def clientUser : Hybrid.UserContext :=
  { userId := some 7
    email := some "client@example.com"
    name := none
    role := "CLIENT_USER"
    authProvider := "local"
    entraOid := none
    entraId := none }

/-! ## RBAC (src/middleware/authorize.ts) and the Mailbox Access Guard
(src/middleware/mailboxAccess.ts)

These modules use the roles-array `UserContext` of their generation of
src/utils/types.ts (`entraId : string`, `roles : string[]`);
`mailboxAccess.ts` imports `isSystemAdmin` from `./authorize`. -/

namespace Legacy

/-- Model of `UserContext` (roles-array generation of src/utils/types.ts). -/
structure UserContext where
  entraId : String
  email : String
  name : Option String
  roles : List String
deriving DecidableEq

/-- Source `hasRole(user, ...allowedRoles)`: some role of the user is allowed. -/
def hasRole (user : UserContext) (allowedRoles : List String) : Bool :=
  user.roles.any (fun role => allowedRoles.contains role)

/-- Source `isSystemAdmin(user)` of authorize.ts: `user.roles.includes('SYSTEM_ADMIN')`. -/
def isSystemAdmin (user : UserContext) : Bool :=
  user.roles.contains "SYSTEM_ADMIN"

/-- Source `isTeamMemberOrAdmin(user)`: SYSTEM_ADMIN or TEAM_MEMBER — the
spec's "admin-tier" predicate for this generation. -/
def isTeamMemberOrAdmin (user : UserContext) : Bool :=
  hasRole user ["SYSTEM_ADMIN", "TEAM_MEMBER"]

/-- A row of the `user_mailboxes` ownership table. -/
structure UserMailboxRow where
  entra_user_id : String
  mailbox_id : Nat
deriving DecidableEq

/-- A row of the `mailboxes` table (the columns this guard reads). -/
structure MailboxRow where
  id : Nat
  is_active : Bool
deriving DecidableEq

/-- The database as seen by the guard.  `fail = some e` models an unreachable
store: every query rejects with `e` (the raw driver error). -/
structure Store where
  user_mailboxes : List UserMailboxRow
  mailboxes : List MailboxRow
  fail : Option String
deriving DecidableEq

/-- Model of `queryOne('SELECT id FROM user_mailboxes WHERE entra_user_id = ? AND
mailbox_id = ?')`: the first matching row or `null`, or a rejected promise
when the store is unreachable. -/
def queryUserMailbox (st : Store) (entraUserId : String) (mailboxId : Nat) :
    Except String (Option UserMailboxRow) :=
  match st.fail with
  | some e => Except.error e
  | none => Except.ok (st.user_mailboxes.find?
      (fun r => r.entra_user_id == entraUserId && r.mailbox_id == mailboxId))

/-- Embedding of `verifyMailboxAccess(user, mailboxId)`.  The second component
counts the ownership-store queries performed, so that "no store lookup" is a
provable property:

```ts
if (isSystemAdmin(user)) { return true; }
const mapping = await queryOne('SELECT id FROM user_mailboxes WHERE entra_user_id = ? AND mailbox_id = ?',
                               [user.entraId, mailboxId]);
return mapping !== null;
```
-/
def verifyMailboxAccess (user : UserContext) (mailboxId : Nat) (st : Store) :
    Except String Bool × Nat :=
  if isSystemAdmin user then (Except.ok true, 0)
  else
    match queryUserMailbox st user.entraId mailboxId with
    | Except.error e => (Except.error e, 1)
    | Except.ok mapping => (Except.ok mapping.isSome, 1)

/-- The two failure outcomes of `requireMailboxAccess`: the thrown
`Error('Access denied...')` (the spec's `ForbiddenError`) and the propagated
store rejection (the spec's `StoreUnavailableError`).  In the source both are
thrown; they are distinct values (distinct constructors here). -/
inductive AccessError where
  | forbidden (msg : String)
  | storeUnavailable (e : String)
deriving DecidableEq

/-- Embedding of `requireMailboxAccess(user, mailboxId)`:

```ts
const hasAccess = await verifyMailboxAccess(user, mailboxId);
if (!hasAccess) { throw new Error('Access denied. You do not have permission to access this mailbox.'); }
```

A rejection of `verifyMailboxAccess` propagates (the `await` re-throws).
-/
def requireMailboxAccess (user : UserContext) (mailboxId : Nat) (st : Store) :
    Except AccessError Unit × Nat :=
  match verifyMailboxAccess user mailboxId st with
  | (Except.error e, n) => (Except.error (AccessError.storeUnavailable e), n)
  | (Except.ok true, n) => (Except.ok (), n)
  | (Except.ok false, n) =>
    (Except.error (AccessError.forbidden
      "Access denied. You do not have permission to access this mailbox."), n)

/-- Embedding of `getUserMailboxIds(user)`:

```ts
if (isSystemAdmin(user)) {
  const mailboxes = await queryOne('SELECT GROUP_CONCAT(id) as ids FROM mailboxes WHERE is_active = 1');
  return mailboxes?.ids ? mailboxes.ids.split(',').map(Number) : [];
}
const result = await queryOne('SELECT GROUP_CONCAT(mailbox_id) as ids FROM user_mailboxes WHERE entra_user_id = ?',
                              [user.entraId]);
return result?.ids ? result.ids.split(',').map(Number) : [];
```

The `GROUP_CONCAT` / `split(',')` / `map(Number)` round trip is the identity
on the list of matching numeric ids (and `GROUP_CONCAT` of no rows is `NULL`,
which the `?:` maps to `[]`), so each branch is embedded as the list of
matching rows' ids, in table order — note `GROUP_CONCAT` has no `DISTINCT`.
-/
def getUserMailboxIds (user : UserContext) (st : Store) : Except String (List Nat) :=
  match st.fail with
  | some e => Except.error e
  | none =>
    if isSystemAdmin user then
      Except.ok ((st.mailboxes.filter (fun m => m.is_active)).map (fun m => m.id))
    else
      Except.ok ((st.user_mailboxes.filter
        (fun r => r.entra_user_id == user.entraId)).map (fun r => r.mailbox_id))

end Legacy

/-- A TEAM_MEMBER identity (admin-tier per the spec, not a system admin). -/
def teamMemberCtx : Legacy.UserContext :=
  { entraId := "tm1", email := "tm@example.com", name := none, roles := ["TEAM_MEMBER"] }

/-- A SYSTEM_ADMIN identity. -/
def sysAdminCtx : Legacy.UserContext :=
  { entraId := "sa1", email := "sa@example.com", name := none, roles := ["SYSTEM_ADMIN"] }

/-- A CLIENT_USER identity with subject id `"u1"`. -/
def clientCtx : Legacy.UserContext :=
  { entraId := "u1", email := "client@example.com", name := none, roles := ["CLIENT_USER"] }

/-- An empty, reachable store. -/
def emptyStore : Legacy.Store := { user_mailboxes := [], mailboxes := [], fail := none }

/-- A reachable store holding a duplicated ownership record (u1, 5). -/
def dupStore : Legacy.Store :=
  { user_mailboxes := [{ entra_user_id := "u1", mailbox_id := 5 },
                       { entra_user_id := "u1", mailbox_id := 5 }]
    mailboxes := []
    fail := none }

/-! ### Helper lemmas about the embedding primitives -/

theorem jsToLower_data (s : String) : (jsToLower s).data = s.data.map Char.toLower := rfl

theorem toLower_star : Char.toLower '*' = '*' := by decide

theorem toLower_dot : Char.toLower '.' = '.' := by decide

/-- Lowercasing a pattern of the form `"*." ++ b` keeps the `"*."` marker. -/
theorem jsToLower_star_dot (b : String) :
    jsToLower ("*." ++ b) = ⟨'*' :: '.' :: b.data.map Char.toLower⟩ := by
  have h : ("*." ++ b).data = '*' :: '.' :: b.data := by
    rw [String.data_append]; rfl
  simp [jsToLower, h, toLower_star, toLower_dot]

/-- Lowercasing a pattern of the form `"*" ++ s` keeps the `"*"` marker. -/
theorem jsToLower_star (s : String) :
    jsToLower ("*" ++ s) = ⟨'*' :: s.data.map Char.toLower⟩ := by
  have h : ("*" ++ s).data = '*' :: s.data := by
    rw [String.data_append]; rfl
  simp [jsToLower, h, toLower_star]

/-- No character other than `'.'` is mapped to `'.'` by `Char.toLower`. -/
theorem toLower_eq_dot {c : Char} (h : Char.toLower c = '.') : c = '.' := by
  dsimp only [Char.toLower] at h
  split at h
  · rename_i hc
    have hval : (Char.ofNat (c.toNat + 32)).toNat = c.toNat + 32 := by
      rw [Char.ofNat, dif_pos (Or.inl (by omega))]
      rfl
    rw [h] at hval
    have : ('.' : Char).toNat = 46 := by decide
    omega
  · exact h

/-- C2 core: on patterns of shape `"*." ++ b` the matcher is exactly
"ends with `"." ++ b`, and is not `b` itself" (after case folding). -/
theorem matchesDomainPattern_star_dot (d b : String) :
    matchesDomainPattern d ("*." ++ b)
      = (jsEndsWith (jsToLower d) ("." ++ jsToLower b)
          && !(jsToLower d == jsToLower b)) := by
  rw [matchesDomainPattern, jsToLower_star_dot]
  have hpre : jsStartsWith ⟨'*' :: '.' :: b.data.map Char.toLower⟩ "*." = true := by
    simp [jsStartsWith, List.isPrefixOf]
  rw [if_pos hpre]
  rfl

/-- C3 core: on patterns of shape `"*" ++ s` where `s` does not start with a
dot, the matcher is exactly "ends with `s`" (after case folding). -/
theorem matchesDomainPattern_star (d s : String) (h : jsStartsWith s "." = false) :
    matchesDomainPattern d ("*" ++ s) = jsEndsWith (jsToLower d) (jsToLower s) := by
  rw [matchesDomainPattern, jsToLower_star]
  have hpre : jsStartsWith ⟨'*' :: s.data.map Char.toLower⟩ "*." = false := by
    simp only [jsStartsWith, List.isPrefixOf] at h ⊢
    cases hs : s.data with
    | nil => simp [hs]
    | cons c rest =>
      rw [hs] at h
      simp only [List.map_cons]
      have hc : ¬ c = '.' := by
        intro hcd
        rw [hcd] at h
        simp [List.isPrefixOf] at h
      have hlc : ¬ Char.toLower c = '.' := fun hl => hc (toLower_eq_dot hl)
      simp [List.isPrefixOf]
      exact fun hh => hlc hh.symm
  rw [if_neg (by simp [hpre])]
  have hpre1 : jsStartsWith ⟨'*' :: s.data.map Char.toLower⟩ "*" = true := by
    simp [jsStartsWith, List.isPrefixOf]
  rw [if_pos hpre1]
  rfl

/-! ## Claim theorems for the pattern matcher -/

/-- C2: for every sender domain `d` and base `b`, `matchesDomainPattern d ("*." ++ b)`
is true iff the case-folded `d` ends with `"." ++` the case-folded `b` and the
case-folded `d` differs from the case-folded `b`; concretely `"cca.gc.ca"`
matches `"*.gc.ca"` and `"gc.ca"` does not. -/
theorem matchesDomainPattern_subdomain_wildcard_spec :
    (∀ d b : String,
      matchesDomainPattern d ("*." ++ b)
        = (jsEndsWith (jsToLower d) ("." ++ jsToLower b)
            && !(jsToLower d == jsToLower b)))
    ∧ matchesDomainPattern "cca.gc.ca" "*.gc.ca" = true
    ∧ matchesDomainPattern "gc.ca" "*.gc.ca" = false :=
  ⟨matchesDomainPattern_star_dot, by decide, by decide⟩

/-- C3: for every sender domain `d` and suffix `s` not starting with `"."`,
`matchesDomainPattern d ("*" ++ s)` is true iff the case-folded `d` ends with
the case-folded `s`; an exact match is permitted and no label boundary is
required. -/
theorem matchesDomainPattern_wildcard_suffix_spec :
    (∀ d s : String, jsStartsWith s "." = false →
      matchesDomainPattern d ("*" ++ s) = jsEndsWith (jsToLower d) (jsToLower s))
    ∧ matchesDomainPattern "canadacouncil.ca" "*canadacouncil.ca" = true
    ∧ matchesDomainPattern "historycanadacouncil.ca" "*canadacouncil.ca" = true :=
  ⟨matchesDomainPattern_star, by decide, by decide⟩

/-- Witness for C3 at a concrete input: `"gc.ca"` does not start with a dot,
and `"cca.gc.ca"` matches `"*gc.ca"` because it ends with `"gc.ca"`. -/
theorem matchesDomainPattern_wildcard_suffix_spec_witness :
    matchesDomainPattern "cca.gc.ca" ("*" ++ "gc.ca")
      = jsEndsWith (jsToLower "cca.gc.ca") (jsToLower "gc.ca") :=
  matchesDomainPattern_wildcard_suffix_spec.1 "cca.gc.ca" "gc.ca" (by decide)

/-- C10: a whitelist pattern consisting of a single asterisk matches every
sender domain, including the empty one: stripping the `*` leaves the empty
suffix and every string ends with the empty string. -/
theorem matchesDomainPattern_bare_star (d : String) :
    matchesDomainPattern d "*" = true := by
  have h : matchesDomainPattern d "*" = matchesDomainPattern d ("*" ++ "") := by rfl
  rw [h, matchesDomainPattern_star d "" (by decide)]
  simp [jsEndsWith, jsToLower, List.isSuffixOf]

/-- C4 counterexample: for the sender `"a@b@gc.ca"` the substring after the
last `'@'` is `"gc.ca"`, which matches the stored pattern `"gc.ca"`, yet
`isSenderWhitelisted` returns `false`, because the code takes `split('@')[1]`
(the segment after the first `'@'`), which is `"b"`. -/
theorem isSenderWhitelisted_lastAt_counterexample :
    isSenderWhitelisted "a@b@gc.ca" ["gc.ca"] = false
    ∧ specAfterLastAt "a@b@gc.ca" = "gc.ca"
    ∧ (["gc.ca"] : List String).any
        (fun p => matchesDomainPattern (specAfterLastAt "a@b@gc.ca") p) = true := by
  refine ⟨rfl, rfl, rfl⟩

/-- Characterization of `isSenderWhitelisted` as an existential over the
stored pattern list. -/
theorem isSenderWhitelisted_eq_true_iff (senderEmail : String) (patterns : List String) :
    isSenderWhitelisted senderEmail patterns = true ↔
      ∃ domain, (splitOnChar '@' senderEmail.data).get? 1 = some domain
        ∧ domain ≠ []
        ∧ ∃ p ∈ patterns, matchesDomainPattern ⟨domain⟩ p = true := by
  rw [isSenderWhitelisted]
  split
  · rename_i hE
    simp only [List.get?_eq_getElem?] at hE
    simp [hE]
  · rename_i domain hE
    simp only [List.get?_eq_getElem?] at hE
    simp only [List.get?_eq_getElem?, hE, Option.some.injEq]
    by_cases he : domain.isEmpty
    · rw [if_pos he]
      constructor
      · intro h0; cases h0
      · rintro ⟨d, hd2, hne, -⟩
        subst hd2
        exact absurd (List.isEmpty_iff.mp he) hne
    · rw [if_neg he]
      simp only [List.any_eq_true]
      constructor
      · rintro ⟨p, hp, hm⟩
        exact ⟨domain, rfl, fun h0 => he (List.isEmpty_iff.mpr h0), p, hp, hm⟩
      · rintro ⟨d, hd2, hne, p, hp, hm⟩
        subst hd2
        exact ⟨p, hp, hm⟩

/-- C4 (amended): `isSenderWhitelisted` returns true iff `split('@')[1]` of the
email — the segment between the first `'@'` and the following `'@'` or the end —
exists, is non-empty, and matches at least one stored pattern; and the result
is invariant under permutation of the stored pattern list (order-independent
logical OR). -/
theorem isSenderWhitelisted_spec (senderEmail : String) (patterns : List String) :
    (isSenderWhitelisted senderEmail patterns = true ↔
      ∃ domain, (splitOnChar '@' senderEmail.data).get? 1 = some domain
        ∧ domain ≠ []
        ∧ ∃ p ∈ patterns, matchesDomainPattern ⟨domain⟩ p = true)
    ∧ (∀ patterns2, patterns.Perm patterns2 →
        isSenderWhitelisted senderEmail patterns
          = isSenderWhitelisted senderEmail patterns2) := by
  refine ⟨isSenderWhitelisted_eq_true_iff senderEmail patterns, ?_⟩
  intro patterns2 hperm
  apply Bool.eq_iff_iff.mpr
  rw [isSenderWhitelisted_eq_true_iff, isSenderWhitelisted_eq_true_iff]
  constructor
  · rintro ⟨d, h1, h2, p, hp, hm⟩
    exact ⟨d, h1, h2, p, hperm.mem_iff.mp hp, hm⟩
  · rintro ⟨d, h1, h2, p, hp, hm⟩
    exact ⟨d, h1, h2, p, hperm.mem_iff.mpr hp, hm⟩

/-- Witness for C4's amended theorem at a concrete input: `"user@cca.gc.ca"`
with stored pattern list `["*.gc.ca"]` is whitelisted. -/
theorem isSenderWhitelisted_spec_witness :
    isSenderWhitelisted "user@cca.gc.ca" ["*.gc.ca"] = true
    ∧ isSenderWhitelisted "user@cca.gc.ca" ["*.gc.ca"]
        = isSenderWhitelisted "user@cca.gc.ca" ["*.gc.ca"] :=
  ⟨(isSenderWhitelisted_spec "user@cca.gc.ca" ["*.gc.ca"]).1.mpr
      ⟨"cca.gc.ca".data, rfl, by decide, "*.gc.ca", by decide, by decide⟩,
   (isSenderWhitelisted_spec "user@cca.gc.ca" ["*.gc.ca"]).2 ["*.gc.ca"] (List.Perm.refl _)⟩

/-- If `authFallback` succeeds, the environment flag was `'local'` and the
bypass marker was present in the Authorization header. -/
theorem authFallback_ok {event : Hybrid.AuthEvent} {env : String}
    {p : Hybrid.AuthPath} {u : Hybrid.UserContext}
    (h : Hybrid.authFallback event env = Except.ok (p, u)) :
    env = "local" ∧ Hybrid.devBypassRequested event = true := by
  rw [Hybrid.authFallback] at h
  by_cases hg : (env == "local" && Hybrid.devBypassRequested event) = true
  · have hg2 := Bool.and_eq_true_iff.mp hg
    exact ⟨by simpa using hg2.1, hg2.2⟩
  · rw [if_neg hg] at h
    cases h

/-- C5: a hybrid-shaped authorizer context (truthy `userId`, `role`,
`authProvider`) always takes the hybrid branch — never the legacy
default-to-SYSTEM_ADMIN branch — and the resolved role is exactly the
context's role field. -/
theorem authenticate_hybrid_priority :
    ∀ (event : Hybrid.AuthEvent) (env : String) (auth : Hybrid.AuthorizerContext) (r : String),
      event.authorizer = some auth →
      Hybrid.truthy auth.userId = true →
      auth.role = some r → r ≠ "" →
      Hybrid.truthy auth.authProvider = true →
      ∃ u : Hybrid.UserContext,
        Hybrid.authenticate event env = Except.ok (Hybrid.AuthPath.hybrid, u)
          ∧ u.role = r := by
  intro event env auth r hA hu hr hrne hp
  have htr : Hybrid.truthy auth.role = true := by
    rw [hr]
    simp [Hybrid.truthy, hrne]
  simp only [Hybrid.authenticate, hA]
  rw [if_pos (by rw [hu, htr, hp]; rfl)]
  exact ⟨_, rfl, by rw [hr]; rfl⟩

/-- Witness for C5: a concrete hybrid context with role TEAM_MEMBER resolves
through the hybrid branch with role TEAM_MEMBER. -/
theorem authenticate_hybrid_priority_witness :
    ∃ u : Hybrid.UserContext,
      Hybrid.authenticate
        { authorizer := some
            { userId := some "42", email := some "t@x.com", name := none
              role := some "TEAM_MEMBER", authProvider := some "entra"
              entraOid := none, entraId := none, principalId := none }
          headerAuthorization := none, headerAuthorizationLower := none }
        "production"
        = Except.ok (Hybrid.AuthPath.hybrid, u) ∧ u.role = "TEAM_MEMBER" :=
  authenticate_hybrid_priority _ "production" _ "TEAM_MEMBER" rfl rfl rfl
    (by decide) rfl

/-- C6: `isAdmin` is true iff the role is SYSTEM_ADMIN or TEAM_MEMBER, and
`requireAdmin` throws `Error('Admin access required')` exactly when the role
is neither (in particular for CLIENT_USER) and returns unit otherwise. -/
theorem requireAdmin_spec (user : Hybrid.UserContext) :
    (Hybrid.isAdmin user = true
      ↔ (user.role = "SYSTEM_ADMIN" ∨ user.role = "TEAM_MEMBER"))
    ∧ (Hybrid.requireAdmin user = Except.error "Admin access required"
      ↔ ¬(user.role = "SYSTEM_ADMIN" ∨ user.role = "TEAM_MEMBER"))
    ∧ (Hybrid.requireAdmin user = Except.ok ()
      ↔ (user.role = "SYSTEM_ADMIN" ∨ user.role = "TEAM_MEMBER")) := by
  have hiff : Hybrid.isAdmin user = true
      ↔ (user.role = "SYSTEM_ADMIN" ∨ user.role = "TEAM_MEMBER") := by
    simp [Hybrid.isAdmin]
  refine ⟨hiff, ?_, ?_⟩
  · rcases h : Hybrid.isAdmin user with _ | _
    · simp [Hybrid.requireAdmin, h, ← hiff]
    · simp [Hybrid.requireAdmin, h, ← hiff]
  · rcases h : Hybrid.isAdmin user with _ | _
    · simp [Hybrid.requireAdmin, h, ← hiff]
    · simp [Hybrid.requireAdmin, h, ← hiff]

/-- Witness for C6: the CLIENT_USER identity is rejected by `requireAdmin`. -/
theorem requireAdmin_spec_witness :
    Hybrid.requireAdmin clientUser = Except.error "Admin access required" :=
  (requireAdmin_spec clientUser).2.1.mpr (by decide)

/-- C9: the dev-bypass branch of `authenticate` is taken only when the
environment flag is `'local'` AND the `DEV_TOKEN_BYPASS` marker is in the
Authorization header; and with no authorizer context and a non-local
environment, `authenticate` throws `Error('Unauthorized')`. -/
theorem authenticate_devBypass_gated :
    (∀ (event : Hybrid.AuthEvent) (env : String) (p : Hybrid.AuthPath)
        (u : Hybrid.UserContext),
      Hybrid.authenticate event env = Except.ok (p, u) →
      p = Hybrid.AuthPath.devBypass →
      env = "local" ∧ Hybrid.devBypassRequested event = true)
    ∧ (∀ (event : Hybrid.AuthEvent) (env : String),
      event.authorizer = none → env ≠ "local" →
      Hybrid.authenticate event env = Except.error "Unauthorized") := by
  constructor
  · intro event env p u hok hp
    subst hp
    cases hA : event.authorizer with
    | some auth =>
      simp only [Hybrid.authenticate, hA] at hok
      by_cases h1 : (Hybrid.truthy auth.userId && Hybrid.truthy auth.role
          && Hybrid.truthy auth.authProvider) = true
      · rw [if_pos h1] at hok
        simp at hok
      · rw [if_neg h1] at hok
        by_cases h2 : (Hybrid.truthy auth.entraId || Hybrid.truthy auth.principalId) = true
        · rw [if_pos h2] at hok
          simp at hok
        · rw [if_neg h2] at hok
          exact authFallback_ok hok
    | none =>
      simp only [Hybrid.authenticate, hA] at hok
      exact authFallback_ok hok
  · intro event env hA hne
    rw [Hybrid.authenticate, hA, Hybrid.authFallback]
    have henv : (env == "local") = false := by simp [hne]
    simp [henv]

/-- Witness for C9: the dev event in a local environment does reach the
bypass, and the bare event in production is rejected. -/
theorem authenticate_devBypass_gated_witness :
    (("local" : String) = "local" ∧ Hybrid.devBypassRequested devEvent = true)
    ∧ Hybrid.authenticate noAuthEvent "production" = Except.error "Unauthorized" :=
  ⟨authenticate_devBypass_gated.1 devEvent "local" Hybrid.AuthPath.devBypass
      Hybrid.devModeUser (by decide) rfl,
   authenticate_devBypass_gated.2 noAuthEvent "production" rfl (by decide)⟩

/-- C1 counterexample: a TEAM_MEMBER identity is admin-tier (by the source's
own `isTeamMemberOrAdmin`), yet `verifyMailboxAccess` does not return true
immediately: it queries the ownership store (query count 1) and returns false
on an empty store, because the bypass tests `isSystemAdmin`, not admin-tier. -/
theorem verifyMailboxAccess_teamMember_counterexample :
    Legacy.isTeamMemberOrAdmin teamMemberCtx = true
    ∧ Legacy.verifyMailboxAccess teamMemberCtx 1 emptyStore = (Except.ok false, 1)
    ∧ Legacy.verifyMailboxAccess teamMemberCtx 1 emptyStore ≠ (Except.ok true, 0) := by
  refine ⟨rfl, rfl, ?_⟩
  intro h
  simp [Legacy.verifyMailboxAccess, Legacy.isSystemAdmin, teamMemberCtx,
    Legacy.queryUserMailbox, emptyStore] at h

/-- C1 (amended): the unconditional no-lookup bypass of `verifyMailboxAccess`
applies exactly to identities whose roles include SYSTEM_ADMIN: for those it
returns true with zero store queries for every mailbox id and store; every
other identity (including TEAM_MEMBER) triggers exactly one ownership-store
query. -/
theorem verifyMailboxAccess_sysadmin_bypass :
    (∀ (user : Legacy.UserContext) (mailboxId : Nat) (st : Legacy.Store),
      Legacy.isSystemAdmin user = true →
      Legacy.verifyMailboxAccess user mailboxId st = (Except.ok true, 0))
    ∧ (∀ (user : Legacy.UserContext) (mailboxId : Nat) (st : Legacy.Store),
      Legacy.isSystemAdmin user = false →
      (Legacy.verifyMailboxAccess user mailboxId st).2 = 1) := by
  constructor
  · intro user mailboxId st h
    rw [Legacy.verifyMailboxAccess, if_pos h]
  · intro user mailboxId st h
    rw [Legacy.verifyMailboxAccess, if_neg (by rw [h]; exact Bool.false_ne_true)]
    cases Legacy.queryUserMailbox st user.entraId mailboxId <;> rfl

/-- Witness for C1's amended theorem: the SYSTEM_ADMIN identity bypasses the
empty store; the TEAM_MEMBER identity performs one query. -/
theorem verifyMailboxAccess_sysadmin_bypass_witness :
    Legacy.verifyMailboxAccess sysAdminCtx 9 emptyStore = (Except.ok true, 0)
    ∧ (Legacy.verifyMailboxAccess teamMemberCtx 9 emptyStore).2 = 1 :=
  ⟨verifyMailboxAccess_sysadmin_bypass.1 sysAdminCtx 9 emptyStore rfl,
   verifyMailboxAccess_sysadmin_bypass.2 teamMemberCtx 9 emptyStore rfl⟩

/-- C7 counterexample: for the CLIENT_USER `"u1"` and a store holding the
ownership record (u1, 5) twice, `getUserMailboxIds` returns `[5, 5]` — the
`GROUP_CONCAT` query has no `DISTINCT`, so the result is not deduplicated. -/
theorem getUserMailboxIds_duplicates_counterexample :
    Legacy.getUserMailboxIds clientCtx dupStore = Except.ok [5, 5]
    ∧ ¬ ([5, 5] : List Nat).Nodup :=
  ⟨rfl, by decide⟩

/-- C7 (amended): on a reachable store, for an identity whose roles include
SYSTEM_ADMIN `getUserMailboxIds` returns the list of active mailbox ids (a
mailbox id is in the result iff some active mailbox row has it); for every
other identity it returns the mailbox ids of exactly its own ownership rows,
in table order, duplicates included (membership iff some owned row has it). -/
theorem getUserMailboxIds_spec :
    ∀ (user : Legacy.UserContext) (st : Legacy.Store) (mid : Nat),
      st.fail = none →
      ((Legacy.isSystemAdmin user = true →
        ∃ l, Legacy.getUserMailboxIds user st = Except.ok l
          ∧ (mid ∈ l ↔ ∃ m ∈ st.mailboxes, m.is_active = true ∧ m.id = mid))
      ∧ (Legacy.isSystemAdmin user = false →
        ∃ l, Legacy.getUserMailboxIds user st = Except.ok l
          ∧ (mid ∈ l ↔ ∃ r ∈ st.user_mailboxes,
              r.entra_user_id = user.entraId ∧ r.mailbox_id = mid))) := by
  intro user st mid hfail
  constructor
  · intro hadm
    have hres : Legacy.getUserMailboxIds user st = Except.ok
        ((st.mailboxes.filter (fun m => m.is_active)).map (fun m => m.id)) := by
      simp [Legacy.getUserMailboxIds, hfail, hadm]
    refine ⟨_, hres, ?_⟩
    simp only [List.mem_map, List.mem_filter]
    constructor
    · rintro ⟨m, ⟨hm, hact⟩, hid⟩
      exact ⟨m, hm, hact, hid⟩
    · rintro ⟨m, hm, hact, hid⟩
      exact ⟨m, ⟨hm, hact⟩, hid⟩
  · intro hadm
    have hres : Legacy.getUserMailboxIds user st = Except.ok
        ((st.user_mailboxes.filter
          (fun r => r.entra_user_id == user.entraId)).map (fun r => r.mailbox_id)) := by
      simp [Legacy.getUserMailboxIds, hfail, hadm]
    refine ⟨_, hres, ?_⟩
    simp only [List.mem_map, List.mem_filter, beq_iff_eq]
    constructor
    · rintro ⟨r, ⟨hr, heq⟩, hid⟩
      exact ⟨r, hr, heq, hid⟩
    · rintro ⟨r, hr, heq, hid⟩
      exact ⟨r, ⟨hr, heq⟩, hid⟩

/-- Witness for C7's amended theorem: in the duplicated store, 5 is reachable
for `"u1"` and 6 is not. -/
theorem getUserMailboxIds_spec_witness :
    (∃ l, Legacy.getUserMailboxIds clientCtx dupStore = Except.ok l
      ∧ (5 ∈ l ↔ ∃ r ∈ dupStore.user_mailboxes,
          r.entra_user_id = clientCtx.entraId ∧ r.mailbox_id = 5)) :=
  (getUserMailboxIds_spec clientCtx dupStore 5 rfl).2 rfl

/-- C8: when the ownership store is unreachable (every query rejects with the
driver error `e`), any identity that is not a system admin gets the failure
propagated through `verifyMailboxAccess` and, from `requireMailboxAccess`, as
the store-unavailable outcome — never as a false ("no access") result and
never as the access-denied error. -/
theorem storeFailure_propagation :
    ∀ (user : Legacy.UserContext) (mid : Nat) (rows : List Legacy.UserMailboxRow)
      (mbs : List Legacy.MailboxRow) (e : String),
      (Legacy.isSystemAdmin user = false →
        Legacy.verifyMailboxAccess user mid ⟨rows, mbs, some e⟩ = (Except.error e, 1)
        ∧ Legacy.requireMailboxAccess user mid ⟨rows, mbs, some e⟩
            = (Except.error (Legacy.AccessError.storeUnavailable e), 1))
      ∧ (Legacy.verifyMailboxAccess user mid ⟨rows, mbs, some e⟩).1 ≠ Except.ok false
      ∧ (∀ msg, (Legacy.requireMailboxAccess user mid ⟨rows, mbs, some e⟩).1
            ≠ Except.error (Legacy.AccessError.forbidden msg)) := by
  intro user mid rows mbs e
  by_cases h : Legacy.isSystemAdmin user = true
  · have hv : Legacy.verifyMailboxAccess user mid ⟨rows, mbs, some e⟩
        = (Except.ok true, 0) := by
      rw [Legacy.verifyMailboxAccess, if_pos h]
    refine ⟨fun hfalse => absurd h (by rw [hfalse]; exact Bool.false_ne_true), ?_, ?_⟩
    · rw [hv]; intro hc; cases hc
    · intro msg
      rw [Legacy.requireMailboxAccess, hv]
      intro hc; cases hc
  · have h' : Legacy.isSystemAdmin user = false := Bool.eq_false_iff.mpr h
    have hv : Legacy.verifyMailboxAccess user mid ⟨rows, mbs, some e⟩
        = (Except.error e, 1) := by
      rw [Legacy.verifyMailboxAccess, if_neg h]
      rfl
    refine ⟨fun _ => ⟨hv, ?_⟩, ?_, ?_⟩
    · rw [Legacy.requireMailboxAccess, hv]
    · rw [hv]; intro hc; cases hc
    · intro msg
      rw [Legacy.requireMailboxAccess, hv]
      intro hc; cases hc

/-- Witness for C8: the CLIENT_USER identity against an unreachable store gets
the propagated driver error from both guard functions. -/
theorem storeFailure_propagation_witness :
    Legacy.verifyMailboxAccess clientCtx 3 ⟨[], [], some "ECONNREFUSED"⟩
      = (Except.error "ECONNREFUSED", 1)
    ∧ Legacy.requireMailboxAccess clientCtx 3 ⟨[], [], some "ECONNREFUSED"⟩
      = (Except.error (Legacy.AccessError.storeUnavailable "ECONNREFUSED"), 1) :=
  (storeFailure_propagation clientCtx 3 [] [] "ECONNREFUSED").1 rfl

/-- Witness for C2 at a concrete input, through the general equation. -/
theorem matchesDomainPattern_subdomain_wildcard_spec_witness :
    matchesDomainPattern "cca.gc.ca" ("*." ++ "gc.ca")
      = (jsEndsWith (jsToLower "cca.gc.ca") ("." ++ jsToLower "gc.ca")
          && !(jsToLower "cca.gc.ca" == jsToLower "gc.ca")) :=
  matchesDomainPattern_subdomain_wildcard_spec.1 "cca.gc.ca" "gc.ca"

/-- Witness for C10 at a concrete input. -/
theorem matchesDomainPattern_bare_star_witness :
    matchesDomainPattern "anything.example.com" "*" = true :=
  matchesDomainPattern_bare_star "anything.example.com"
